import Mathlib

/-!
Shallow embedding of the authentication and authorization core of the
MCPAuthPrototype server (src/auth.py, src/server.py, src/tools.py).

The embedding models:
  * `validate_token` (src/auth.py, lines 74-147): header presence check,
    Bearer scheme extraction, JWT decode and verification, claim typing.
  * `AuthMiddleware.on_list_tools` (src/server.py, lines 198-248): scope
    based filtering of the tool catalog.
  * `AuthMiddleware.on_call_tool` (src/server.py, lines 250-332): scope
    based gating of tool invocation.
  * `TOOL_SCOPE_MAP` (src/tools.py, lines 37-40).

The JWT library (PyJWT's `jwt.decode`) is an external dependency; it is
modelled by `jwtDecode` below, faithful to its documented behaviour for the
options used by the source (`algorithms=[...]`, `options.require=["exp","sub"]`):
structural parsing of the compact serialization, algorithm check, signature
check, required-claim presence, claim typing (including the subject-type
check of current PyJWT), and strict expiry against evaluation time.
Loosely-typed Python claim values are modelled by `PyVal` (strings,
integers, and flat lists of atoms), enough to express every behaviour the
claims mention.  Case folding is modelled for ASCII, which covers the
literal scheme comparison the source performs.
-/

/-- A loosely-typed atomic Python value appearing in a JWT claim:
a string or a non-string (represented by an integer). -/
inductive PyAtom where
  | str (v : String)
  | int (v : Int)
deriving DecidableEq, Repr

/-- A loosely-typed Python claim value: an atom or a list of atoms. -/
inductive PyVal where
  | atom (a : PyAtom)
  | list (vs : List PyAtom)
deriving DecidableEq, Repr

/-- Whether a claim-list entry is a string (`isinstance(s, str)` in the source). -/
def PyAtom.isStr : PyAtom → Bool
  | .str _ => true
  | .int _ => false

/-- The string carried by a string atom (only consulted under an `isStr` guard). -/
def PyAtom.strVal : PyAtom → String
  | .str v => v
  | .int _ => ""

/-- A decoded JWT payload: a finite map from claim names to claim values. -/
abbrev Payload := List (String × PyVal)

/-- Structural parse of a candidate token string: either not a JWS at all,
or a JWS carrying the algorithm name from its header, the key its signature
was produced with, and its payload claims. -/
inductive TokenParse where
  | garbage
  | jws (alg : String) (key : String) (payload : Payload)

/-- Outcome of PyJWT's `jwt.decode`: `expired` corresponds to
`jwt.ExpiredSignatureError`, `invalid` to every other `jwt.InvalidTokenError`
(carrying the library's detail message), `ok` to a successful decode. -/
inductive DecodeOutcome where
  | expired
  | invalid (reason : String)
  | ok (payload : Payload)
deriving DecidableEq, Repr

/-- The process-wide verification context of src/auth.py:
`settings.jwt_secret_key`, `settings.jwt_algorithm`, the evaluation time,
and the structural parse of token strings. -/
structure JwtEnv where
  secret : String
  alg : String
  now : Int
  parse : List Char → TokenParse

/-- A character of the base64url alphabet used by the compact JWS serialization. -/
def isB64UrlChar (c : Char) : Bool :=
  c.isAlphanum || c == '-' || c == '_'

/-- Whether a token string is shaped like a compact JWS: three dot-separated
base64url segments (so exactly two dots and no character outside the
base64url alphabet plus the dot). -/
def isCompactJwt (tok : List Char) : Bool :=
  tok.all (fun c => isB64UrlChar c || c == '.') && tok.count '.' == 2

/-- Model of `jwt.decode(token, secret, algorithms=[alg], options={"require":["exp","sub"]})`
(src/auth.py lines 116-123).  Checks, in the library's order: structure,
allowed algorithm, signature, presence of the required `exp` and `sub`
claims, `iat` typing when present, `exp` typing and strict expiry
(`exp <= now` is expired), and that `sub` is a string. -/
def jwtDecode (env : JwtEnv) (tok : List Char) : DecodeOutcome :=
  if isCompactJwt tok then
    match env.parse tok with
    | .garbage => .invalid "invalid token structure"
    | .jws talg key payload =>
      if talg ≠ env.alg then .invalid "the specified alg value is not allowed"
      else if key ≠ env.secret then .invalid "signature verification failed"
      else match payload.lookup "exp", payload.lookup "sub" with
      | none, _ => .invalid "token is missing the exp claim"
      | some _, none => .invalid "token is missing the sub claim"
      | some expV, some subV =>
        match payload.lookup "iat" with
        | some (PyVal.atom (PyAtom.str _)) => .invalid "iat claim must be an integer"
        | some (PyVal.list _) => .invalid "iat claim must be an integer"
        | _ =>
          match expV with
          | PyVal.atom (PyAtom.int e) =>
            if e ≤ env.now then .expired
            else
              match subV with
              | PyVal.atom (PyAtom.str _) => .ok payload
              | _ => .invalid "subject must be a string"
          | _ => .invalid "exp claim must be an integer"
  else .invalid "not enough segments"

/-- `AuthError` of src/auth.py (lines 35-52): message plus HTTP status code. -/
structure AuthError where
  message : String
  status_code : Nat
deriving DecidableEq, Repr

/-- `TokenInfo` of src/auth.py (lines 55-71).  The `subject` field holds
whatever `payload.get("sub", "")` produced; Python's type annotation is not
enforced at runtime, so the field is modelled with the dynamic value type. -/
structure TokenInfo where
  subject : PyVal
  scopes : List String
deriving DecidableEq, Repr

/-- Step 4 of `validate_token` (src/auth.py lines 132-147): extract `sub`
(defaulting to the empty string), type-check the `scope` claim (absent means
the empty list, which passes both checks), and build the `TokenInfo`. -/
def extractClaims (payload : Payload) : Except AuthError TokenInfo :=
  let subject := (payload.lookup "sub").getD (PyVal.atom (PyAtom.str ""))
  match payload.lookup "scope" with
  | none => .ok ⟨subject, []⟩
  | some (PyVal.atom _) => .error ⟨"Invalid scope claim: must be a list", 401⟩
  | some (PyVal.list vs) =>
    if vs.all PyAtom.isStr then .ok ⟨subject, vs.map PyAtom.strVal⟩
    else .error ⟨"Invalid scope claim: all entries must be strings", 401⟩

/-- Step 3 of `validate_token` (src/auth.py lines 115-130): run the decode
and map its failures to the two `except` branches of the source, then hand
a successful payload to step 4. -/
def validateDecoded (env : JwtEnv) (tok : List Char) : Except AuthError TokenInfo :=
  match jwtDecode env tok with
  | .expired => .error ⟨"Token has expired", 401⟩
  | .invalid r => .error ⟨"Invalid token: " ++ r, 401⟩
  | .ok payload => extractClaims payload

/-- Python's `s.split(" ", 1)`: everything before the first space, and the
rest after it when a space exists. -/
def breakAtSpace : List Char → List Char × Option (List Char)
  | [] => ([], none)
  | c :: cs =>
    if c = ' ' then ([], some cs)
    else
      match breakAtSpace cs with
      | (a, r) => (c :: a, r)

/-- Step 2 of `validate_token` (src/auth.py lines 102-106): the header must
split into exactly two parts and the first, lowercased, must be "bearer". -/
def validateParts : List Char × Option (List Char) → JwtEnv → Except AuthError TokenInfo
  | (_, none), _ =>
    .error ⟨"Invalid Authorization header format, expected 'Bearer <token>'", 401⟩
  | (scheme, some tok), env =>
    if scheme.map Char.toLower = "bearer".data then validateDecoded env tok
    else .error ⟨"Invalid Authorization header format, expected 'Bearer <token>'", 401⟩

/-- Steps 1-2 of `validate_token` on a present header string (src/auth.py
lines 96-106): an empty string is falsy in Python, so it fails the presence
check; otherwise split and check the scheme. -/
def validateHeaderStr (l : List Char) (env : JwtEnv) : Except AuthError TokenInfo :=
  if l = [] then .error ⟨"Missing Authorization header", 401⟩
  else validateParts (breakAtSpace l) env

/-- `validate_token` of src/auth.py (lines 74-147). -/
def validate_token (authorization_header : Option String) (env : JwtEnv) :
    Except AuthError TokenInfo :=
  match authorization_header with
  | none => .error ⟨"Missing Authorization header", 401⟩
  | some s => validateHeaderStr s.data env

/-- An MCP tool descriptor as the middleware sees it. -/
structure Tool where
  name : String
  description : String
deriving DecidableEq, Repr

/-- The result of a tool body, opaque to the middleware. -/
abbrev ToolResult := String

/-- `TOOL_SCOPE_MAP` of src/tools.py (lines 37-40). -/
def TOOL_SCOPE_MAP : List (String × String) :=
  [("get_public_info", "public:read"), ("get_confidential_info", "confidential:read")]

/-- An error surfaced by a middleware hook: an `AuthError` from
authentication or a `PermissionError` (with its message) from authorization. -/
inductive HookError where
  | auth (e : AuthError)
  | perm (message : String)
deriving DecidableEq, Repr

/-- One structured audit record emitted by the middleware: the request
correlation id, the decision field, and the optional reason field. -/
structure AuditEntry where
  requestId : String
  decision : String
  reason : Option String
deriving DecidableEq, Repr

/-- The filtering loop of `on_list_tools` (src/server.py lines 228-232):
keep a tool when its registry entry is truthy (a non-empty string in Python)
and is one of the credential's scopes. -/
def filterToolsByScope (scopeMap : List (String × String)) (ti : TokenInfo)
    (allTools : List Tool) : List Tool :=
  allTools.filter (fun tool =>
    match scopeMap.lookup tool.name with
    | some rs => !(rs == "") && decide (rs ∈ ti.scopes)
    | none => false)

/-- `AuthMiddleware.on_list_tools` (src/server.py lines 198-248):
authenticate, obtain the catalog, filter by scope, log.  The catalog
obtained from `call_next` is passed in as `allTools`; the hook returns the
protocol outcome together with the audit records it emitted. -/
def on_list_tools (requestId : String) (header : Option String) (env : JwtEnv)
    (scopeMap : List (String × String)) (allTools : List Tool) :
    Except HookError (List Tool) × List AuditEntry :=
  match validate_token header env with
  | .error e => (.error (.auth e), [⟨requestId, "rejected", some "authentication_failed"⟩])
  | .ok ti =>
    (.ok (filterToolsByScope scopeMap ti allTools),
     [⟨requestId, "authenticated", none⟩, ⟨requestId, "filtered", none⟩])

/-- `AuthMiddleware.on_call_tool` (src/server.py lines 250-332):
authenticate, look the tool up in the registry (`None` means deny), check
scope membership, and only then return the downstream result unchanged.
`callNext` is the value the downstream tool body would produce. -/
def on_call_tool (requestId : String) (header : Option String) (env : JwtEnv)
    (scopeMap : List (String × String)) (toolName : String) (callNext : ToolResult) :
    Except HookError ToolResult × List AuditEntry :=
  match validate_token header env with
  | .error e => (.error (.auth e), [⟨requestId, "rejected", some "authentication_failed"⟩])
  | .ok ti =>
    match scopeMap.lookup toolName with
    | none =>
      (.error (.perm ("Access denied: tool '" ++ toolName ++ "' has no scope mapping")),
       [⟨requestId, "authenticated", none⟩, ⟨requestId, "denied", some "no_scope_mapping"⟩])
    | some rs =>
      if rs ∈ ti.scopes then
        (.ok callNext,
         [⟨requestId, "authenticated", none⟩, ⟨requestId, "allowed", none⟩])
      else
        (.error (.perm ("Access denied: tool '" ++ toolName ++ "' requires scope '" ++ rs ++ "'")),
         [⟨requestId, "authenticated", none⟩, ⟨requestId, "denied", some "insufficient_scope"⟩])

/-- The whitespace characters of Python's `str.split()` tokenization, used
to state the specification's "whitespace-separated tokens". -/
def isPyWs (c : Char) : Bool :=
  c == ' ' || c == '\t' || c == '\n' || c == '\r' || c == '\x0b' || c == '\x0c'

/-- Split a character list at whitespace, keeping empty chunks; the result
is always non-empty. -/
def splitWs : List Char → List (List Char)
  | [] => [[]]
  | c :: l =>
    match splitWs l with
    | [] => [[]]
    | t :: ts => if isPyWs c then [] :: t :: ts else (c :: t) :: ts

/-- The whitespace-separated tokens of a character list (empty chunks dropped),
as in Python's `str.split()`. -/
def wsTokens (l : List Char) : List (List Char) :=
  (splitWs l).filter (fun t => !t.isEmpty)

/-- Predicate written from the specification's wording, for comparison with
the source's parsing: the header consists of exactly two whitespace-separated
tokens and the first equals "Bearer" case-insensitively. -/
def specTwoTokenBearer (s : String) : Bool :=
  match wsTokens s.data with
  | [p, _] => p.map Char.toLower == "bearer".data
  | _ => false

deriving instance DecidableEq for Except

/-- A concrete verification context for witnesses: the dev secret and
algorithm of src/config.py, one well-signed token string "a.b.c" carrying
subject "alice" and both scopes, everything else garbage. -/
def envStd : JwtEnv :=
  { secret := "dev-secret-change-me"
    alg := "HS256"
    now := 1000
    parse := fun tok =>
      if tok = "a.b.c".data then
        .jws "HS256" "dev-secret-change-me"
          [("sub", .atom (.str "alice")),
           ("scope", .list [.str "public:read", .str "confidential:read"]),
           ("exp", .atom (.int 2000)),
           ("iat", .atom (.int 500))]
      else .garbage }

/-- A registry that maps one tool name to the empty required scope, for the
two hooks' divergent treatment of empty-string scopes. -/
def regEmptyScope : List (String × String) := [("ghost_tool", "")]

/-- A verification context holding an expired "a.b.c" token: the claims are
well-formed and the signature valid, but `exp` is in the past. -/
def envExpired : JwtEnv :=
  { secret := "dev-secret-change-me"
    alg := "HS256"
    now := 1000
    parse := fun tok =>
      if tok = "a.b.c".data then
        .jws "HS256" "dev-secret-change-me"
          [("sub", .atom (.str "alice")),
           ("scope", .list [.str "public:read"]),
           ("exp", .atom (.int 500))]
      else .garbage }

/-- A verification context whose only token "a.b.c" is signed with a key
different from the configured secret. -/
def envWrongKey : JwtEnv :=
  { secret := "dev-secret-change-me"
    alg := "HS256"
    now := 1000
    parse := fun tok =>
      if tok = "a.b.c".data then
        .jws "HS256" "wrong-secret"
          [("sub", .atom (.str "attacker")),
           ("scope", .list [.str "confidential:read"]),
           ("exp", .atom (.int 2000))]
      else .garbage }

/-- A well-signed payload whose scope claim is a string rather than a list. -/
def payloadScopeAtom : Payload :=
  [("sub", .atom (.str "alice")), ("exp", .atom (.int 2000)),
   ("scope", .atom (.str "public:read"))]

/-- A well-signed payload whose scope list contains a non-string entry. -/
def payloadScopeNonStr : Payload :=
  [("sub", .atom (.str "alice")), ("exp", .atom (.int 2000)),
   ("scope", .list [.str "public:read", .int 123])]

/-- A well-signed payload with no scope claim at all. -/
def payloadNoScope : Payload :=
  [("sub", .atom (.str "alice")), ("exp", .atom (.int 2000))]

/-- A verification context serving an arbitrary fixed payload for the
token string "a.b.c", correctly signed with the configured dev secret. -/
def envWithPayload (payload : Payload) : JwtEnv :=
  { secret := "dev-secret-change-me"
    alg := "HS256"
    now := 1000
    parse := fun tok =>
      if tok = "a.b.c".data then .jws "HS256" "dev-secret-change-me" payload
      else .garbage }

/-- A well-signed payload granting exactly the empty-string scope. -/
def payloadEmptyScopeStr : Payload :=
  [("sub", .atom (.str "alice")), ("exp", .atom (.int 2000)),
   ("scope", .list [.str ""])]

example : specTwoTokenBearer "Bearer a.b.c" = true := by decide
example : specTwoTokenBearer "BEARER  a.b.c" = true := by decide
example : specTwoTokenBearer "Bearer a b" = false := by decide
example : specTwoTokenBearer "Bearer" = false := by decide
example : specTwoTokenBearer "Basic a.b.c" = false := by decide

lemma splitWs_ne_nil (l : List Char) : splitWs l ≠ [] := by
  cases l with
  | nil => simp [splitWs]
  | cons c cs =>
    unfold splitWs
    cases h : splitWs cs with
    | nil => simp
    | cons t ts => by_cases hws : isPyWs c <;> simp [hws]

lemma breakAtSpace_none (l : List Char) (a : List Char)
    (h : breakAtSpace l = (a, none)) : ' ' ∉ l := by
  induction l generalizing a with
  | nil => simp
  | cons c cs ih =>
    unfold breakAtSpace at h
    by_cases hc : c = ' '
    · simp [hc] at h
    · simp only [if_neg hc] at h
      rcases hb : breakAtSpace cs with ⟨a', r'⟩
      rw [hb] at h
      cases h
      intro hmem
      rcases List.mem_cons.mp hmem with h1 | h2
      · exact hc h1.symm
      · exact ih a' hb h2

lemma breakAtSpace_some (l : List Char) (a b : List Char)
    (h : breakAtSpace l = (a, some b)) : l = a ++ ' ' :: b ∧ ' ' ∉ a := by
  induction l generalizing a b with
  | nil => simp [breakAtSpace] at h
  | cons c cs ih =>
    unfold breakAtSpace at h
    by_cases hc : c = ' '
    · simp only [if_pos hc] at h
      cases h
      simp [hc]
    · simp only [if_neg hc] at h
      rcases hb : breakAtSpace cs with ⟨a', r'⟩
      rw [hb] at h
      cases h
      rcases ih a' b hb with ⟨heq, hnot⟩
      constructor
      · simp [heq]
      · intro hmem
        rcases List.mem_cons.mp hmem with h1 | h2
        · exact hc h1.symm
        · exact hnot h2

lemma splitWs_no_ws_append (p l : List Char) (hp : ∀ c ∈ p, isPyWs c = false) :
    ∃ t ts, splitWs l = t :: ts ∧ splitWs (p ++ l) = (p ++ t) :: ts := by
  induction p with
  | nil =>
    rcases h : splitWs l with _ | ⟨t, ts⟩
    · exact absurd h (splitWs_ne_nil l)
    · exact ⟨t, ts, rfl, by simp [h]⟩
  | cons c p ih =>
    have hc : isPyWs c = false := hp c (List.mem_cons_self c p)
    have hp' : ∀ x ∈ p, isPyWs x = false := fun x hx => hp x (List.mem_cons_of_mem c hx)
    rcases ih hp' with ⟨t, ts, h1, h2⟩
    refine ⟨t, ts, h1, ?_⟩
    show splitWs (c :: (p ++ l)) = (c :: (p ++ t)) :: ts
    unfold splitWs
    rw [h2, hc]
    simp

lemma wsTokens_token_space (p t : List Char) (hne : p ≠ [])
    (hp : ∀ c ∈ p, isPyWs c = false) :
    wsTokens (p ++ ' ' :: t) = p :: wsTokens t := by
  rcases splitWs_no_ws_append p (' ' :: t) hp with ⟨u, us, h1, h2⟩
  have hsp : splitWs (' ' :: t) = [] :: splitWs t := by
    conv_lhs => unfold splitWs
    rcases h : splitWs t with _ | ⟨v, vs⟩
    · exact absurd h (splitWs_ne_nil t)
    · simp [isPyWs]
  rw [hsp] at h1
  cases h1
  unfold wsTokens
  rw [h2]
  simp [hne]

lemma wsTokens_single (t : List Char) (hne : t ≠ [])
    (ht : ∀ c ∈ t, isPyWs c = false) : wsTokens t = [t] := by
  rcases splitWs_no_ws_append t [] ht with ⟨u, us, h1, h2⟩
  simp [splitWs] at h1
  rcases h1 with ⟨hu, hus⟩
  rw [hu, hus] at h2
  unfold wsTokens
  rw [List.append_nil] at h2
  rw [h2]
  simp [hne]

lemma bearer_char_not_ws (c : Char) (h : c.toLower ∈ "bearer".data) :
    isPyWs c = false := by
  by_contra hws
  simp only [Bool.not_eq_false] at hws
  have hcases : c = ' ' ∨ c = '\t' ∨ c = '\n' ∨ c = '\r' ∨ c = '\x0b' ∨ c = '\x0c' := by
    unfold isPyWs at hws
    simp only [Bool.or_eq_true, beq_iff_eq] at hws
    tauto
  rcases hcases with h' | h' | h' | h' | h' | h' <;> subst h' <;> revert h <;> decide

lemma ws_char_not_compact (t : List Char) (c : Char) (hc : c ∈ t)
    (hws : isPyWs c = true) : isCompactJwt t = false := by
  unfold isCompactJwt
  apply Bool.and_eq_false_iff.mpr
  left
  apply Bool.not_eq_true _ |>.mp
  intro hall
  have := List.all_eq_true.mp hall c hc
  have hcases : c = ' ' ∨ c = '\t' ∨ c = '\n' ∨ c = '\r' ∨ c = '\x0b' ∨ c = '\x0c' := by
    unfold isPyWs at hws
    simp only [Bool.or_eq_true, beq_iff_eq] at hws
    tauto
  rcases hcases with h' | h' | h' | h' | h' | h' <;> subst h' <;> revert this <;> decide

lemma nil_not_compact : isCompactJwt [] = false := by decide

/-- Claim C1: for every invoke-operation request, the downstream tool body's
result is returned unchanged exactly when the credential validates, the tool
name has a registry entry, and that required scope is among the granted
scopes; in every other case the hook produces an error that does not depend
on the downstream body at all (so no operation logic runs). -/
theorem invoke_gate_iff (rid : String) (h : Option String) (env : JwtEnv)
    (scopeMap : List (String × String)) (name : String) (r r' : ToolResult) :
    ((∃ ti, validate_token h env = .ok ti ∧
        ∃ rs, scopeMap.lookup name = some rs ∧ rs ∈ ti.scopes) ∧
      (on_call_tool rid h env scopeMap name r).1 = .ok r ∧
      (on_call_tool rid h env scopeMap name r').1 = .ok r') ∨
    ((¬ ∃ ti, validate_token h env = .ok ti ∧
        ∃ rs, scopeMap.lookup name = some rs ∧ rs ∈ ti.scopes) ∧
      ∃ e, (on_call_tool rid h env scopeMap name r).1 = .error e ∧
        (on_call_tool rid h env scopeMap name r').1 = .error e) := by
  rcases hv : validate_token h env with e | ti
  · right
    refine ⟨?_, .auth e, by simp [on_call_tool, hv], by simp [on_call_tool, hv]⟩
    rintro ⟨ti, hti, -⟩
    exact Except.noConfusion hti
  · rcases hl : scopeMap.lookup name with - | rs
    · right
      refine ⟨?_, .perm ("Access denied: tool '" ++ name ++ "' has no scope mapping"),
        by simp [on_call_tool, hv, hl], by simp [on_call_tool, hv, hl]⟩
      rintro ⟨ti', hti', rs', hrs', -⟩
      exact Option.noConfusion hrs'
    · by_cases hmem : rs ∈ ti.scopes
      · exact Or.inl ⟨⟨ti, rfl, rs, rfl, hmem⟩,
          by simp [on_call_tool, hv, hl, hmem], by simp [on_call_tool, hv, hl, hmem]⟩
      · right
        refine ⟨?_, .perm ("Access denied: tool '" ++ name ++ "' requires scope '" ++ rs ++ "'"),
          by simp [on_call_tool, hv, hl, hmem], by simp [on_call_tool, hv, hl, hmem]⟩
        rintro ⟨ti', hti', rs', hrs', hmem'⟩
        cases hti'
        cases hrs'
        exact hmem hmem'

/-- Claim C8: the authorization decision is deterministic.  Both hooks are
pure functions of the header, the verification context, the registry and
the request data; in particular the decision component is independent of
the per-request fresh correlation id, so repeating an identical request
yields the identical outcome. -/
theorem decision_deterministic (rid rid' : String) (h : Option String) (env : JwtEnv)
    (scopeMap : List (String × String)) (name : String) (r : ToolResult)
    (allTools : List Tool) :
    validate_token h env = validate_token h env ∧
    (on_call_tool rid h env scopeMap name r).1 = (on_call_tool rid' h env scopeMap name r).1 ∧
    (on_list_tools rid h env scopeMap allTools).1 = (on_list_tools rid' h env scopeMap allTools).1 := by
  refine ⟨rfl, ?_, ?_⟩
  · unfold on_call_tool
    rcases validate_token h env with e | ti
    · rfl
    · rcases scopeMap.lookup name with - | rs
      · rfl
      · by_cases hmem : rs ∈ ti.scopes <;> simp [hmem]
  · unfold on_list_tools
    rcases validate_token h env with e | ti <;> rfl

/-- Claim C10: the list-filtering hook never fabricates or modifies
operations: whenever it returns a list, that list is a sublist of the
unfiltered catalog (each element an unchanged catalog element, order
preserved, nothing added or duplicated). -/
theorem list_hook_sublist (rid : String) (h : Option String) (env : JwtEnv)
    (scopeMap : List (String × String)) (allTools out : List Tool)
    (hok : (on_list_tools rid h env scopeMap allTools).1 = .ok out) :
    out.Sublist allTools := by
  unfold on_list_tools at hok
  rcases hv : validate_token h env with e | ti <;> rw [hv] at hok
  · exact Except.noConfusion hok
  · simp only at hok
    cases hok
    exact List.filter_sublist allTools

example : validate_token (some "Bearer a.b.c") envStd =
    .ok ⟨.atom (.str "alice"), ["public:read", "confidential:read"]⟩ := by decide
example : validate_token (some "bearer a.b.c") envStd =
    .ok ⟨.atom (.str "alice"), ["public:read", "confidential:read"]⟩ := by decide
example : validate_token (some "Basic a.b.c") envStd =
    .error ⟨"Invalid Authorization header format, expected 'Bearer <token>'", 401⟩ := by decide
example : validate_token (some "Bearer a b") envStd =
    .error ⟨"Invalid token: not enough segments", 401⟩ := by decide

lemma TOOL_SCOPE_MAP_lookup_ne_empty (n rs : String)
    (h : TOOL_SCOPE_MAP.lookup n = some rs) : rs ≠ "" := by
  rw [TOOL_SCOPE_MAP] at h
  simp only [List.lookup] at h
  split at h
  · cases h
    decide
  · split at h
    · cases h
      decide
    · exact absurd h (by simp)

/-- Claim C2: for a validated credential, the list hook succeeds and a tool
of the catalog is in its output exactly when the registry maps the tool's
name to a scope the credential holds; with an empty granted-scope set the
output is empty. -/
theorem list_filter_iff (rid : String) (h : Option String) (env : JwtEnv)
    (ti : TokenInfo) (allTools : List Tool)
    (hval : validate_token h env = .ok ti) :
    ∃ out, (on_list_tools rid h env TOOL_SCOPE_MAP allTools).1 = .ok out ∧
      (∀ tool, tool ∈ out ↔ tool ∈ allTools ∧
        ∃ rs, TOOL_SCOPE_MAP.lookup tool.name = some rs ∧ rs ∈ ti.scopes) ∧
      (ti.scopes = [] → out = []) := by
  refine ⟨filterToolsByScope TOOL_SCOPE_MAP ti allTools,
    by simp [on_list_tools, hval], ?_, ?_⟩
  · intro tool
    rw [filterToolsByScope, List.mem_filter]
    constructor
    · rintro ⟨hmem, hcond⟩
      refine ⟨hmem, ?_⟩
      rcases hl : TOOL_SCOPE_MAP.lookup tool.name with - | rs
      · rw [hl] at hcond
        exact absurd hcond (by simp)
      · rw [hl] at hcond
        simp only [Bool.and_eq_true, decide_eq_true_eq] at hcond
        exact ⟨rs, rfl, hcond.2⟩
    · rintro ⟨hmem, rs, hl, hrs⟩
      refine ⟨hmem, ?_⟩
      rw [hl]
      have hne : rs ≠ "" := TOOL_SCOPE_MAP_lookup_ne_empty tool.name rs hl
      simp [hne, hrs]
  · intro hempty
    rw [filterToolsByScope]
    rw [List.filter_eq_nil_iff]
    intro tool hmem
    rcases hl : TOOL_SCOPE_MAP.lookup tool.name with - | rs
    · simp [hl]
    · simp [hl, hempty]

/-- Claim C3: an authenticated invocation of any tool name that has no
registry entry is denied with a permission error naming the tool, whatever
the granted scopes are, and the outcome does not depend on the downstream
tool body. -/
theorem unmapped_tool_denied (rid : String) (h : Option String) (env : JwtEnv)
    (ti : TokenInfo) (name : String) (r r' : ToolResult)
    (hval : validate_token h env = .ok ti)
    (hnone : TOOL_SCOPE_MAP.lookup name = none) :
    (on_call_tool rid h env TOOL_SCOPE_MAP name r).1 =
      .error (.perm ("Access denied: tool '" ++ name ++ "' has no scope mapping")) ∧
    on_call_tool rid h env TOOL_SCOPE_MAP name r =
      on_call_tool rid h env TOOL_SCOPE_MAP name r' := by
  constructor <;> simp [on_call_tool, hval, hnone]

/-- Claim C9: the two enforcement points treat an empty-string required
scope differently.  A tool whose registry entry is the empty string is
excluded from the listing for every credential (Python truthiness of the
scope), while the invoke hook (which compares the entry against None only)
returns the downstream result for any credential holding the empty scope. -/
theorem empty_scope_asymmetry :
    (∀ (ti : TokenInfo) (allTools : List Tool) (d : String),
      Tool.mk "ghost_tool" d ∉ filterToolsByScope regEmptyScope ti allTools) ∧
    (∀ (rid : String) (h : Option String) (env : JwtEnv) (ti : TokenInfo) (r : ToolResult),
      validate_token h env = .ok ti → "" ∈ ti.scopes →
      (on_call_tool rid h env regEmptyScope "ghost_tool" r).1 = .ok r) := by
  constructor
  · intro ti allTools d hmem
    rw [filterToolsByScope, List.mem_filter] at hmem
    rcases hmem with ⟨-, hcond⟩
    simp [regEmptyScope, List.lookup] at hcond
  · intro rid h env ti r hval hmem
    simp [on_call_tool, hval, regEmptyScope, List.lookup, hmem]

lemma breakAtSpace_append (p t : List Char) (hp : ' ' ∉ p) :
    breakAtSpace (p ++ ' ' :: t) = (p, some t) := by
  induction p with
  | nil => simp [breakAtSpace]
  | cons c cs ih =>
    have hc : ¬ c = ' ' := fun h => hp (h ▸ List.mem_cons_self c cs)
    have hcs : ' ' ∉ cs := fun h => hp (List.mem_cons_of_mem c h)
    show breakAtSpace (c :: (cs ++ ' ' :: t)) = (c :: cs, some t)
    unfold breakAtSpace
    rw [if_neg hc, ih hcs]

lemma validateHeaderStr_scheme (p tok : List Char) (env : JwtEnv)
    (hsp : ' ' ∉ p) (hlow : p.map Char.toLower = "bearer".data) :
    validateHeaderStr (p ++ ' ' :: tok) env = validateDecoded env tok := by
  unfold validateHeaderStr
  rw [if_neg (by simp), breakAtSpace_append p tok hsp]
  show (if p.map Char.toLower = "bearer".data then validateDecoded env tok
    else .error ⟨"Invalid Authorization header format, expected 'Bearer <token>'", 401⟩) =
      validateDecoded env tok
  rw [if_pos hlow]

lemma validate_token_bearer (t : String) (env : JwtEnv) :
    validate_token (some ("Bearer " ++ t)) env = validateDecoded env t.data := by
  show validateHeaderStr ("Bearer " ++ t).data env = _
  have hdata : ("Bearer " ++ t).data = "Bearer".data ++ ' ' :: t.data := rfl
  rw [hdata]
  exact validateHeaderStr_scheme _ _ env (by decide) (by decide)

/-- Counterexample to claim C4: an expired token fails with the message
"Token has expired" while a badly-signed token fails with a message
beginning "Invalid token: " — neither is the single message "invalid
token", and the two failures are distinguishable to the caller. -/
theorem error_messages_differ_counterexample :
    validate_token (some "Bearer a.b.c") envExpired =
      .error ⟨"Token has expired", 401⟩ ∧
    validate_token (some "Bearer a.b.c") envWrongKey =
      .error ⟨"Invalid token: signature verification failed", 401⟩ ∧
    "Token has expired" ≠ "invalid token" ∧
    "Invalid token: signature verification failed" ≠ "invalid token" ∧
    "Token has expired" ≠ "Invalid token: signature verification failed" := by
  refine ⟨by decide, by decide, by decide, by decide, by decide⟩

/-- Claim C4 as amended: every decode-and-verify failure still raises an
`AuthError` with status 401, but with two distinguishable message shapes:
expiry yields "Token has expired" and every other failure yields
"Invalid token: " followed by the library's detail. -/
theorem decode_failure_messages (t : String) (env : JwtEnv) :
    (jwtDecode env t.data = .expired →
      validate_token (some ("Bearer " ++ t)) env = .error ⟨"Token has expired", 401⟩) ∧
    (∀ r, jwtDecode env t.data = .invalid r →
      validate_token (some ("Bearer " ++ t)) env = .error ⟨"Invalid token: " ++ r, 401⟩) := by
  constructor
  · intro hexp
    rw [validate_token_bearer]
    unfold validateDecoded
    rw [hexp]
  · intro r hinv
    rw [validate_token_bearer]
    unfold validateDecoded
    rw [hinv]

/-- Witness for `decode_failure_messages`: both branches applied at the
concrete contexts of the counterexample. -/
theorem decode_failure_messages_witness :
    validate_token (some ("Bearer " ++ "a.b.c")) envExpired =
      .error ⟨"Token has expired", 401⟩ ∧
    validate_token (some ("Bearer " ++ "a.b.c")) envWrongKey =
      .error ⟨"Invalid token: " ++ "signature verification failed", 401⟩ :=
  ⟨(decode_failure_messages "a.b.c" envExpired).1 (by decide),
   (decode_failure_messages "a.b.c" envWrongKey).2 "signature verification failed" (by decide)⟩

/-- Claim C6: for a token that passes signature and expiry verification, a
present non-list scope claim fails with the "must be a list" error, a scope
list with a non-string entry fails with the "all entries must be strings"
error, and an absent scope claim succeeds with an empty granted-scope set. -/
theorem scope_claim_typing (t : String) (env : JwtEnv) (payload : Payload)
    (hdec : jwtDecode env t.data = .ok payload) :
    (∀ a, payload.lookup "scope" = some (PyVal.atom a) →
      validate_token (some ("Bearer " ++ t)) env =
        .error ⟨"Invalid scope claim: must be a list", 401⟩) ∧
    (∀ vs x, payload.lookup "scope" = some (PyVal.list vs) → x ∈ vs → x.isStr = false →
      validate_token (some ("Bearer " ++ t)) env =
        .error ⟨"Invalid scope claim: all entries must be strings", 401⟩) ∧
    (payload.lookup "scope" = none →
      ∃ ti, validate_token (some ("Bearer " ++ t)) env = .ok ti ∧ ti.scopes = []) := by
  refine ⟨?_, ?_, ?_⟩
  · intro a hsc
    rw [validate_token_bearer]
    unfold validateDecoded
    rw [hdec]
    simp only [extractClaims, hsc]
  · intro vs x hsc hx hxs
    rw [validate_token_bearer]
    unfold validateDecoded
    rw [hdec]
    have hall : ¬ (vs.all PyAtom.isStr = true) := by
      intro hall
      have := List.all_eq_true.mp hall x hx
      rw [hxs] at this
      exact Bool.noConfusion this
    simp only [extractClaims, hsc]
    rw [if_neg hall]
  · intro hsc
    refine ⟨⟨(payload.lookup "sub").getD (PyVal.atom (PyAtom.str "")), []⟩, ?_, rfl⟩
    rw [validate_token_bearer]
    unfold validateDecoded
    rw [hdec]
    simp only [extractClaims, hsc]

/-- Witness for `scope_claim_typing`: all three branches applied at
concrete, well-signed tokens. -/
theorem scope_claim_typing_witness :
    validate_token (some ("Bearer " ++ "a.b.c")) (envWithPayload payloadScopeAtom) =
      .error ⟨"Invalid scope claim: must be a list", 401⟩ ∧
    validate_token (some ("Bearer " ++ "a.b.c")) (envWithPayload payloadScopeNonStr) =
      .error ⟨"Invalid scope claim: all entries must be strings", 401⟩ ∧
    ∃ ti, validate_token (some ("Bearer " ++ "a.b.c")) (envWithPayload payloadNoScope) =
      .ok ti ∧ ti.scopes = [] :=
  ⟨(scope_claim_typing "a.b.c" (envWithPayload payloadScopeAtom) payloadScopeAtom
      (by decide)).1 (.str "public:read") (by decide),
   (scope_claim_typing "a.b.c" (envWithPayload payloadScopeNonStr) payloadScopeNonStr
      (by decide)).2.1 [.str "public:read", .int 123] (.int 123) (by decide)
      (by decide) (by decide),
   (scope_claim_typing "a.b.c" (envWithPayload payloadNoScope) payloadNoScope
      (by decide)).2.2 (by decide)⟩

lemma jwtDecode_ok_sub (env : JwtEnv) (tok : List Char) (payload : Payload)
    (h : jwtDecode env tok = .ok payload) :
    ∃ s, payload.lookup "sub" = some (PyVal.atom (PyAtom.str s)) := by
  unfold jwtDecode at h
  repeat' split at h
  all_goals cases h
  exact ⟨_, by assumption⟩

/-- Claim C7: every `TokenInfo` that `validate_token` returns carries a
string subject, and that string is exactly the value of the decoded
payload's `sub` claim. -/
theorem subject_is_string (h : Option String) (env : JwtEnv) (ti : TokenInfo)
    (hok : validate_token h env = .ok ti) :
    ∃ s, ti.subject = PyVal.atom (PyAtom.str s) ∧
      ∃ raw scheme tok payload, h = some raw ∧
        breakAtSpace raw.data = (scheme, some tok) ∧
        jwtDecode env tok = .ok payload ∧
        payload.lookup "sub" = some (PyVal.atom (PyAtom.str s)) := by
  rcases h with - | raw
  · exact absurd hok (by simp [validate_token])
  · rw [show validate_token (some raw) env = validateHeaderStr raw.data env from rfl] at hok
    unfold validateHeaderStr at hok
    by_cases hdata : raw.data = []
    · rw [if_pos hdata] at hok
      exact absurd hok (by simp)
    rw [if_neg hdata] at hok
    rcases hbs : breakAtSpace raw.data with ⟨scheme, - | tok⟩ <;> rw [hbs] at hok
    · exact absurd hok (by simp [validateParts])
    · simp only [validateParts] at hok
      by_cases hlow : scheme.map Char.toLower = "bearer".data
      case neg =>
        rw [if_neg hlow] at hok
        exact absurd hok (by simp)
      rw [if_pos hlow] at hok
      unfold validateDecoded at hok
      rcases hd : jwtDecode env tok with - | r | payload <;> rw [hd] at hok
      · exact absurd hok (by simp)
      · exact absurd hok (by simp)
      · rcases jwtDecode_ok_sub env tok payload hd with ⟨s, hsub⟩
        refine ⟨s, ?_, raw, scheme, tok, payload, rfl, hbs, hd, hsub⟩
        simp only [extractClaims, hsub] at hok
        rcases hsc : payload.lookup "scope" with - | v <;> rw [hsc] at hok
        · cases hok
          rfl
        · rcases v with a | vs
          · exact absurd hok (by simp)
          · have hok' : (if vs.all PyAtom.isStr = true then
                (Except.ok ⟨(some (PyVal.atom (PyAtom.str s))).getD (PyVal.atom (PyAtom.str "")),
                  vs.map PyAtom.strVal⟩ : Except AuthError TokenInfo)
              else .error ⟨"Invalid scope claim: all entries must be strings", 401⟩) =
                .ok ti := hok
            by_cases hall : vs.all PyAtom.isStr = true
            · rw [if_pos hall] at hok'
              cases hok'
              rfl
            · rw [if_neg hall] at hok'
              exact absurd hok' (by simp)

/-- Witness for `subject_is_string` at a concrete validated token. -/
theorem subject_is_string_witness :
    ∃ s, (TokenInfo.mk (PyVal.atom (PyAtom.str "alice")) []).subject =
        PyVal.atom (PyAtom.str s) ∧
      ∃ raw scheme tok payload, (some "Bearer a.b.c" : Option String) = some raw ∧
        breakAtSpace raw.data = (scheme, some tok) ∧
        jwtDecode (envWithPayload payloadNoScope) tok = .ok payload ∧
        payload.lookup "sub" = some (PyVal.atom (PyAtom.str s)) :=
  subject_is_string (some "Bearer a.b.c") (envWithPayload payloadNoScope)
    ⟨PyVal.atom (PyAtom.str "alice"), []⟩ (by decide)

/-- Claim C5: absent and empty headers always fail; every non-empty header
that is not exactly two whitespace-separated tokens with a case-insensitive
"Bearer" first token also fails (either at the scheme check or, when the
single-space split happens to pass, at the decode of a token that cannot be
a compact JWS); and the scheme match itself is case-insensitive: "bearer",
"BEARER" and "Bearer" prefixes give identical outcomes. -/
theorem header_validation (env : JwtEnv) :
    (∀ h : Option String, h = none ∨ h = some "" →
      ∃ e, validate_token h env = .error e) ∧
    (∀ s : String, s ≠ "" → specTwoTokenBearer s = false →
      ∃ e, validate_token (some s) env = .error e) ∧
    (∀ t : String,
      validate_token (some ("bearer " ++ t)) env = validate_token (some ("Bearer " ++ t)) env ∧
      validate_token (some ("BEARER " ++ t)) env = validate_token (some ("Bearer " ++ t)) env) := by
  refine ⟨?_, ?_, ?_⟩
  · rintro h (rfl | rfl)
    · exact ⟨⟨"Missing Authorization header", 401⟩, rfl⟩
    · exact ⟨⟨"Missing Authorization header", 401⟩, rfl⟩
  · intro s hne hmal
    obtain ⟨l⟩ := s
    have hld : (String.mk l).data = l := rfl
    have hlne : ¬ l = [] := by
      intro h0
      apply hne
      rw [h0]
    rw [show validate_token (some (String.mk l)) env = validateHeaderStr l env from rfl]
    unfold validateHeaderStr
    rw [if_neg hlne]
    rcases hbs : breakAtSpace l with ⟨p, - | tok⟩
    · exact ⟨⟨"Invalid Authorization header format, expected 'Bearer <token>'", 401⟩, rfl⟩
    · simp only [validateParts]
      by_cases hlow : p.map Char.toLower = "bearer".data
      case neg =>
        rw [if_neg hlow]
        exact ⟨⟨"Invalid Authorization header format, expected 'Bearer <token>'", 401⟩, rfl⟩
      rw [if_pos hlow]
      obtain ⟨hsplit, hnsp⟩ := breakAtSpace_some l p tok hbs
      have hpne : p ≠ [] := by
        intro hp
        rw [hp] at hlow
        exact absurd hlow.symm (by decide)
      have hpws : ∀ c ∈ p, isPyWs c = false := by
        intro c hc
        apply bearer_char_not_ws
        rw [← hlow]
        exact List.mem_map_of_mem Char.toLower hc
      have htoks : wsTokens l = p :: wsTokens tok := by
        rw [hsplit]
        exact wsTokens_token_space p tok hpne hpws
      by_cases hcase : tok = [] ∨ ∃ c ∈ tok, isPyWs c = true
      · have hcompact : isCompactJwt tok = false := by
          rcases hcase with h0 | ⟨c, hc, hw⟩
          · rw [h0]
            exact nil_not_compact
          · exact ws_char_not_compact tok c hc hw
        refine ⟨⟨"Invalid token: " ++ "not enough segments", 401⟩, ?_⟩
        unfold validateDecoded jwtDecode
        rw [if_neg (by rw [hcompact]; exact Bool.false_ne_true)]
      · push_neg at hcase
        obtain ⟨hne', hnows⟩ := hcase
        have hsingle : wsTokens tok = [tok] :=
          wsTokens_single tok hne' (fun c hc => by simpa using hnows c hc)
        rw [hsingle] at htoks
        exfalso
        unfold specTwoTokenBearer at hmal
        rw [hld, htoks] at hmal
        simp only [hlow] at hmal
        exact absurd hmal (by simp)
  · intro t
    constructor
    · rw [validate_token_bearer]
      rw [show validate_token (some ("bearer " ++ t)) env =
        validateHeaderStr ("bearer".data ++ ' ' :: t.data) env from rfl]
      exact validateHeaderStr_scheme _ _ env (by decide) (by decide)
    · rw [validate_token_bearer]
      rw [show validate_token (some ("BEARER " ++ t)) env =
        validateHeaderStr ("BEARER".data ++ ' ' :: t.data) env from rfl]
      exact validateHeaderStr_scheme _ _ env (by decide) (by decide)

/-- Witness for `header_validation`: each part applied at concrete inputs,
with the case-insensitive prefixes shown on a token that actually validates. -/
theorem header_validation_witness :
    (∃ e, validate_token none envStd = .error e) ∧
    (∃ e, validate_token (some "") envStd = .error e) ∧
    (∃ e, validate_token (some "Basic a.b.c") envStd = .error e) ∧
    (∃ e, validate_token (some "Bearer a b") envStd = .error e) ∧
    (∃ e, validate_token (some "Bearer") envStd = .error e) ∧
    validate_token (some ("bearer " ++ "a.b.c")) envStd =
      validate_token (some ("Bearer " ++ "a.b.c")) envStd ∧
    validate_token (some ("BEARER " ++ "a.b.c")) envStd =
      validate_token (some ("Bearer " ++ "a.b.c")) envStd :=
  ⟨(header_validation envStd).1 none (Or.inl rfl),
   (header_validation envStd).1 (some "") (Or.inr rfl),
   (header_validation envStd).2.1 "Basic a.b.c" (by decide) (by decide),
   (header_validation envStd).2.1 "Bearer a b" (by decide) (by decide),
   (header_validation envStd).2.1 "Bearer" (by decide) (by decide),
   ((header_validation envStd).2.2 "a.b.c").1,
   ((header_validation envStd).2.2 "a.b.c").2⟩

/-- Witness for `list_filter_iff`: a concrete credential holding both
scopes, over a catalog with both mapped tools and an unmapped one. -/
theorem list_filter_iff_witness :
    ∃ out, (on_list_tools "req1" (some "Bearer a.b.c") envStd TOOL_SCOPE_MAP
        [Tool.mk "get_public_info" "d1", Tool.mk "get_confidential_info" "d2",
         Tool.mk "unmapped_tool" "d3"]).1 = .ok out ∧
      (∀ tool, tool ∈ out ↔
        tool ∈ [Tool.mk "get_public_info" "d1", Tool.mk "get_confidential_info" "d2",
          Tool.mk "unmapped_tool" "d3"] ∧
        ∃ rs, TOOL_SCOPE_MAP.lookup tool.name = some rs ∧
          rs ∈ (["public:read", "confidential:read"] : List String)) ∧
      ((["public:read", "confidential:read"] : List String) = [] → out = []) :=
  list_filter_iff "req1" (some "Bearer a.b.c") envStd
    ⟨.atom (.str "alice"), ["public:read", "confidential:read"]⟩
    [Tool.mk "get_public_info" "d1", Tool.mk "get_confidential_info" "d2",
     Tool.mk "unmapped_tool" "d3"] (by decide)

/-- Witness for `unmapped_tool_denied`: an unmapped tool name invoked with
the full superset of the registry's scopes is still denied. -/
theorem unmapped_tool_denied_witness :
    (on_call_tool "req1" (some "Bearer a.b.c") envStd TOOL_SCOPE_MAP
        "delete_everything" "res").1 =
      .error (.perm ("Access denied: tool '" ++ "delete_everything" ++ "' has no scope mapping")) ∧
    on_call_tool "req1" (some "Bearer a.b.c") envStd TOOL_SCOPE_MAP
        "delete_everything" "res" =
      on_call_tool "req1" (some "Bearer a.b.c") envStd TOOL_SCOPE_MAP
        "delete_everything" "res2" :=
  unmapped_tool_denied "req1" (some "Bearer a.b.c") envStd
    ⟨.atom (.str "alice"), ["public:read", "confidential:read"]⟩
    "delete_everything" "res" "res2" (by decide) (by decide)

/-- Witness for `empty_scope_asymmetry`: the ghost tool is absent from a
listing that contains it in the catalog, yet its invocation succeeds for a
credential granted the empty-string scope. -/
theorem empty_scope_asymmetry_witness :
    Tool.mk "ghost_tool" "hidden" ∉
      filterToolsByScope regEmptyScope ⟨.atom (.str "alice"), [""]⟩
        [Tool.mk "ghost_tool" "hidden"] ∧
    (on_call_tool "req1" (some "Bearer a.b.c") (envWithPayload payloadEmptyScopeStr)
        regEmptyScope "ghost_tool" "res").1 = .ok "res" :=
  ⟨empty_scope_asymmetry.1 ⟨.atom (.str "alice"), [""]⟩
      [Tool.mk "ghost_tool" "hidden"] "hidden",
   empty_scope_asymmetry.2 "req1" (some "Bearer a.b.c")
      (envWithPayload payloadEmptyScopeStr) ⟨.atom (.str "alice"), [""]⟩ "res"
      (by decide) (by decide)⟩

/-- Witness for `list_hook_sublist`: the concrete filtered listing is a
sublist of the concrete catalog. -/
theorem list_hook_sublist_witness :
    List.Sublist [Tool.mk "get_public_info" "d1"]
      [Tool.mk "get_public_info" "d1", Tool.mk "unmapped_tool" "d3"] :=
  list_hook_sublist "req1" (some "Bearer a.b.c") envStd TOOL_SCOPE_MAP
    [Tool.mk "get_public_info" "d1", Tool.mk "unmapped_tool" "d3"]
    [Tool.mk "get_public_info" "d1"] (by decide)
